import Mathlib

/-!
Verification development for the DXCluster Cache service
(source: dxcluster_cache.py).

The Python source is shallowly embedded as executable Lean definitions:

* strings are modelled as lists of characters (List Char);
* Python datetime values are modelled by the structure DateTime, whose
  day field is the calendar date expressed as a day index (the civil
  calendar is in bijection with day indices; daysFromCivil converts a
  year/month/day triple to its index);
* machine floats only ever carry decimal literals of the shape
  digits[.digits] in this program, so they are modelled as rationals;
* code that can raise an exception returns an Option / Except value,
  with none (resp. .error) standing for the raised exception;
* the two regular expressions TELNET_RE and SHDX_RE are embedded via a
  small backtracking matcher (reMatch) over a regex syntax tree, and the
  two patterns are transcribed node by node from the source.
-/

/-- String literals used throughout, named so that statements never have
to repeat raw literals. -/
def dxDeChars : List Char := "DX".data

def deChars : List Char := "de".data

def colonChars : List Char := ":".data

def dotChars : List Char := ".".data

def zChars : List Char := "Z".data

def ltChars : List Char := "<".data

def gtChars : List Char := ">".data

def viaChars : List Char := "via".data

def potaChars : List Char := "pota".data

def cqChars : List Char := "cq".data

def clusterChars : List Char := "cluster".data

def spaceViaSpace : List Char := " via ".data

def tzSuffixChars : List Char := "+00:00".data

def utcZChars : List Char := "Z".data

def digitsChars : List Char := "0123456789".data

/-- Decimal digit character of n % 10 (models the digits printed by
Python's %d formatting). -/
def digitChar (n : Nat) : Char :=
  if n % 10 = 0 then '0'
  else if n % 10 = 1 then '1'
  else if n % 10 = 2 then '2'
  else if n % 10 = 3 then '3'
  else if n % 10 = 4 then '4'
  else if n % 10 = 5 then '5'
  else if n % 10 = 6 then '6'
  else if n % 10 = 7 then '7'
  else if n % 10 = 8 then '8'
  else '9'

/-- Numeric value of a decimal digit character. -/
def digitVal (c : Char) : Nat := c.toNat - 48

/-- Value of a list of decimal digit characters. -/
def natOfDigits (s : List Char) : Nat :=
  s.foldl (fun a c => a * 10 + digitVal c) 0

/-- Decimal rendering of a natural number (models Python's str on a
nonnegative int); the fuel argument bounds the digit recursion. -/
def natCharsAux : Nat → Nat → List Char
  | 0, _ => []
  | fuel + 1, n => if n < 10 then [digitChar n] else natCharsAux fuel (n / 10) ++ [digitChar n]

def natStr (n : Nat) : List Char := natCharsAux (n + 1) n

/-- Decimal rendering of an integer (models Python's str on an int). -/
def intStr (d : Int) : List Char :=
  if d < 0 then '-' :: natStr d.natAbs else natStr d.toNat

/-- Two-digit zero-padded rendering (models %02d for arguments below
100, which is the only way the program uses it). -/
def pad2 (n : Nat) : List Char := [digitChar (n / 10), digitChar n]

/-- Three-digit zero-padded rendering (models %03d). -/
def pad3 (n : Nat) : List Char :=
  if n < 1000 then [digitChar (n / 100), digitChar (n / 10), digitChar n] else natStr n

/-- Six-digit zero-padded rendering (models %06d for arguments below
1000000, which is the only way the program uses it). -/
def pad6 (n : Nat) : List Char :=
  [digitChar (n / 100000), digitChar (n / 10000), digitChar (n / 1000),
   digitChar (n / 100), digitChar (n / 10), digitChar n]

/-- Does pat occur at the head of s. -/
def beginsWith : List Char → List Char → Bool
  | [], _ => true
  | _ :: _, [] => false
  | p :: ps, c :: cs => p = c && beginsWith ps cs

/-- Python substring containment: pat in s. -/
def containsSub (s pat : List Char) : Bool :=
  match s with
  | [] => beginsWith pat []
  | _ :: rest => beginsWith pat s || containsSub rest pat

/-- Python str.replace, fuel-structured so that it reduces inside the
kernel: replace every (non-overlapping, left-to-right) occurrence of
pat by rep; pat is nonempty in every use in this program, so one unit
of fuel per input character suffices. -/
def replaceAllF (pat rep : List Char) : Nat → List Char → List Char
  | _, [] => []
  | 0, s => s
  | fuel + 1, c :: rest =>
    if beginsWith pat (c :: rest) then rep ++ replaceAllF pat rep fuel (rest.drop (pat.length - 1))
    else c :: replaceAllF pat rep fuel rest

def replaceAll (pat rep s : List Char) : List Char := replaceAllF pat rep s.length s

/-- Python str.strip with no argument: drop whitespace from both ends. -/
def pyStrip (s : List Char) : List Char :=
  ((s.dropWhile Char.isWhitespace).reverse.dropWhile Char.isWhitespace).reverse

/-- Python str.rstrip("Z"): drop trailing Z characters. -/
def rstripZ (s : List Char) : List Char :=
  (s.reverse.dropWhile (fun c => c = 'Z')).reverse

/-- Python str.lower (the program only ever lowers ASCII text). -/
def lowerChars (s : List Char) : List Char := s.map Char.toLower

/-- Python str.split with no argument, fuel-structured so that it
reduces inside the kernel: split on whitespace runs (one unit of fuel
per input character suffices). -/
def pySplitF : Nat → List Char → List (List Char)
  | _, [] => []
  | 0, _ => []
  | fuel + 1, c :: rest =>
    if c.isWhitespace then pySplitF fuel rest
    else
      let w := rest.takeWhile (fun x => !x.isWhitespace)
      (c :: w) :: pySplitF fuel (rest.drop w.length)

def pySplit (s : List Char) : List (List Char) := pySplitF s.length s

/-- Python str.capitalize: first character uppercased, the rest
lowercased. -/
def pyCapitalize : List Char → List Char
  | [] => []
  | c :: rest => c.toUpper :: rest.map Char.toLower

/-- Join a list of words with single spaces (models " ".join). -/
def joinSpace : List (List Char) → List Char
  | [] => []
  | [w] => w
  | w :: rest => w ++ ' ' :: joinSpace rest

/-- to_uc_word from the source: title-case every whitespace-separated
word of (s or ""). -/
def to_uc_word (s : Option (List Char)) : List Char :=
  joinSpace ((pySplit (s.getD [])).map pyCapitalize)

/-- Python int() restricted to the literal shapes this program feeds it:
optional surrounding whitespace, an optional sign, then decimal digits
(none gives the ValueError that int() raises otherwise). -/
def pyInt (s : List Char) : Option Int :=
  let t := pyStrip s
  let signed : Bool × List Char :=
    match t with
    | c :: rest => if c = '-' then (true, rest) else if c = '+' then (false, rest) else (false, t)
    | [] => (false, [])
  if signed.2 ≠ [] ∧ signed.2.all Char.isDigit then
    some (if signed.1 then -(natOfDigits signed.2 : Int) else (natOfDigits signed.2 : Int))
  else none

/-- Python float() restricted to the literal shapes this program feeds
it: optional surrounding whitespace, optional sign, decimal digits with
an optional fractional part (at least one digit overall); none stands
for the ValueError float() raises on non-numeric text. -/
def pyFloat (s : List Char) : Option ℚ :=
  let t := pyStrip s
  let signed : Bool × List Char :=
    match t with
    | c :: rest => if c = '-' then (true, rest) else if c = '+' then (false, rest) else (false, t)
    | [] => (false, [])
  let ip := signed.2.takeWhile Char.isDigit
  let rest := signed.2.drop ip.length
  let ok : Bool × Nat × Nat :=
    match rest with
    | [] => (decide (ip ≠ []), natOfDigits ip, 0)
    | '.' :: fp =>
      if fp.all Char.isDigit ∧ (ip ≠ [] ∨ fp ≠ []) then
        (true, natOfDigits ip * 10 ^ fp.length + natOfDigits fp, fp.length)
      else (false, 0, 0)
    | _ => (false, 0, 0)
  if ok.1 then
    let mag : ℚ := mkRat (ok.2.1 : Int) (10 ^ ok.2.2)
    some (if signed.1 then -mag else mag)
  else none

/-- int(float(s)) for the digits[.digits] strings matched by the two
spot regexes: the integer part of the literal. -/
def intOfFloatChars (s : List Char) : Nat := natOfDigits (s.takeWhile Char.isDigit)

/-- qrg2band_khz from the source: the chain of open-interval range
checks, on the parsed numeric value. -/
def qrg2band (f : ℚ) : List Char :=
  if 1000 < f ∧ f < 2000 then ("160m").data
  else if 3000 < f ∧ f < 4000 then ("80m").data
  else if 6000 < f ∧ f < 8000 then ("40m").data
  else if 9000 < f ∧ f < 11000 then ("30m").data
  else if 13000 < f ∧ f < 15000 then ("20m").data
  else if 17000 < f ∧ f < 19000 then ("17m").data
  else if 20000 < f ∧ f < 22000 then ("15m").data
  else if 23000 < f ∧ f < 25000 then ("12m").data
  else if 27000 < f ∧ f < 30000 then ("10m").data
  else if 49000 < f ∧ f < 52000 then ("6m").data
  else if 69000 < f ∧ f < 71000 then ("4m").data
  else if 140000 < f ∧ f < 150000 then ("2m").data
  else if 430000 < f ∧ f < 440000 then ("70cm").data
  else []

/-- qrg2band_khz on raw text input: float() failure is caught and turned
into the empty string by the try/except in the source. -/
def qrg2band_khz (s : List Char) : List Char :=
  match pyFloat s with
  | none => []
  | some f => qrg2band f

/-- Declarative list of the band ranges, in the order the source checks
them, for stating the range properties of qrg2band. -/
def bandRanges : List (ℚ × ℚ × List Char) :=
  [(1000, 2000, ("160m").data), (3000, 4000, ("80m").data), (6000, 8000, ("40m").data),
   (9000, 11000, ("30m").data), (13000, 15000, ("20m").data), (17000, 19000, ("17m").data),
   (20000, 22000, ("15m").data), (23000, 25000, ("12m").data), (27000, 30000, ("10m").data),
   (49000, 52000, ("6m").data), (69000, 71000, ("4m").data), (140000, 150000, ("2m").data),
   (430000, 440000, ("70cm").data)]

/-- Membership of a frequency in one declared band range. -/
def inBandRange (e : ℚ × ℚ × List Char) (q : ℚ) : Prop := e.1 < q ∧ q < e.2.1

/-- detect_source_from_message from the source. -/
def detect_source_from_message (msg : List Char) : List Char :=
  let m := lowerChars msg
  if containsSub m potaChars then potaChars
  else if containsSub m cqChars then cqChars
  else clusterChars

/-- Python datetime values, with the calendar date abstracted to a day
index (see the module comment). -/
structure DateTime where
  day : Int
  hour : Nat
  minute : Nat
  second : Nat
  micro : Nat
deriving DecidableEq

/-- Microseconds on the global timeline; datetime comparison and
subtraction are comparison and subtraction of these values. -/
def DateTime.toMicros (d : DateTime) : Int :=
  (((d.day * 24 + (d.hour : Int)) * 60 + (d.minute : Int)) * 60 + (d.second : Int)) * 1000000
    + (d.micro : Int)

/-- Twelve hours expressed in microseconds. -/
def twelveHoursMicros : Int := 12 * 3600 * 1000000

/-- parse_z_time from the source.  none models the ValueError raised by
int() on a non-numeric slice or by the datetime constructor on an
out-of-range hour or minute. -/
def parse_z_time (timestr : List Char) (now : DateTime) : Option DateTime :=
  let t := rstripZ timestr
  if t.length = 3 ∨ t.length = 4 then
    let hm : Option (Int × Int) :=
      if t.length = 3 then
        match pyInt (t.take 1), pyInt (t.drop 1) with
        | some a, some b => some (a, b)
        | _, _ => none
      else
        match pyInt (t.take 2), pyInt ((t.drop 2).take 2) with
        | some a, some b => some (a, b)
        | _, _ => none
    match hm with
    | none => none
    | some (hh, mm) =>
      if 0 ≤ hh ∧ hh ≤ 23 ∧ 0 ≤ mm ∧ mm ≤ 59 then
        let w : DateTime := ⟨now.day, hh.toNat, mm.toNat, now.second, now.micro⟩
        some (if w.toMicros - now.toMicros > twelveHoursMicros then { w with day := w.day - 1 } else w)
      else none
  else some now

/-- Syntax trees for the two regular expressions of the source;
star carries a greediness flag (true = greedy, false = lazy). -/
inductive RE where
  | eps : RE
  | pred : (Char → Bool) → RE
  | seq : RE → RE → RE
  | alt : RE → RE → RE
  | star : Bool → RE → RE
  | group : Nat → RE → RE

/-- Backtracking matcher in continuation-passing style, mirroring the
leftmost/greedy/lazy semantics of Python's re module on the operators
used by TELNET_RE and SHDX_RE; alternatives are tried left first, a
greedy star consumes first, a lazy star yields first.  Groups record
the consumed slice.  The fuel argument only bounds recursion depth. -/
def reMatch : Nat → RE → List Char → List (Nat × List Char) →
    (List Char → List (Nat × List Char) → Option (List (Nat × List Char))) →
    Option (List (Nat × List Char))
  | 0, _, _, _, _ => none
  | _ + 1, .eps, s, caps, k => k s caps
  | _ + 1, .pred p, s, caps, k =>
    match s with
    | [] => none
    | c :: rest => if p c then k rest caps else none
  | fuel + 1, .seq a b, s, caps, k =>
    reMatch fuel a s caps (fun s2 caps2 => reMatch fuel b s2 caps2 k)
  | fuel + 1, .alt a b, s, caps, k =>
    (reMatch fuel a s caps k).orElse (fun _ => reMatch fuel b s caps k)
  | fuel + 1, .star g r, s, caps, k =>
    if g then
      (reMatch fuel r s caps (fun s2 caps2 =>
        reMatch fuel (.star g r) s2 caps2 k)).orElse (fun _ => k s caps)
    else
      (k s caps).orElse (fun _ =>
        reMatch fuel r s caps (fun s2 caps2 => reMatch fuel (.star g r) s2 caps2 k))
  | fuel + 1, .group n r, s, caps, k =>
    reMatch fuel r s caps (fun s2 caps2 =>
      k s2 ((n, s.take (s.length - s2.length)) :: caps2))

/-- Literal sequence of characters. -/
def rlit : List Char → RE
  | [] => .eps
  | c :: rest => .seq (.pred (fun x => x = c)) (rlit rest)

/-- One-or-more repetition with the given greediness. -/
def rplus (g : Bool) (r : RE) : RE := .seq r (.star g r)

/-- Greedy option (present first, like a greedy ? in re). -/
def ropt (r : RE) : RE := .alt r .eps

/-- Character class \s. -/
def wsP : RE := .pred Char.isWhitespace

/-- Character class \S. -/
def nwsP : RE := .pred (fun c => !c.isWhitespace)

/-- Character class [0-9]. -/
def digitP : RE := .pred Char.isDigit

/-- Character class [A-Za-z]. -/
def alphaP : RE := .pred Char.isAlpha

/-- The dot class of re (any character except a newline). -/
def dotP : RE := .pred (fun c => c ≠ '\n')

/-- Group numbers of TELNET_RE in source order. -/
def gSpotter : Nat := 1

def gFreq : Nat := 2

def gSpotted : Nat := 3

def gRest : Nat := 4

def gTime : Nat := 5

def gDate : Nat := 6

def gVia : Nat := 7

def gMessage : Nat := 8

/-- Frequency subpattern [0-9]+\.?[0-9]* shared by both regexes. -/
def freqRE : RE :=
  .seq (rplus true digitP) (.seq (ropt (rlit dotChars)) (.star true digitP))

/-- Time subpattern [0-9]{3,4}Z (greedy counted repetition: three
digits, then a fourth preferred when possible). -/
def time34RE : RE :=
  .seq digitP (.seq digitP (.seq digitP (.seq (ropt digitP) (rlit zChars))))

/-- Time subpattern [0-9]{4}Z. -/
def time4RE : RE :=
  .seq digitP (.seq digitP (.seq digitP (.seq digitP (rlit zChars))))

/-- Date subpattern [0-9]{2}-[A-Za-z]{3}-[0-9]{4}. -/
def dateRE : RE :=
  .seq digitP (.seq digitP (.seq (.pred (fun c => c = '-'))
    (.seq alphaP (.seq alphaP (.seq alphaP (.seq (.pred (fun c => c = '-'))
      (.seq digitP (.seq digitP (.seq digitP digitP)))))))))

/-- TELNET_RE transcribed node by node:
DX\s+de\s+(?P<spotter>\S+):\s+(?P<freq>[0-9]+\.?[0-9]*)\s+(?P<spotted>\S+)\s+(?P<rest>.+?)\s+(?P<time>[0-9]{3,4}Z) -/
def telnetRE : RE :=
  .seq (rlit dxDeChars) <| .seq (rplus true wsP) <| .seq (rlit deChars) <|
  .seq (rplus true wsP) <|
  .seq (.group gSpotter (rplus true nwsP)) <| .seq (rlit colonChars) <|
  .seq (rplus true wsP) <|
  .seq (.group gFreq freqRE) <|
  .seq (rplus true wsP) <| .seq (.group gSpotted (rplus true nwsP)) <|
  .seq (rplus true wsP) <|
  .seq (.group gRest (rplus false dotP)) <| .seq (rplus true wsP) <|
  (.group gTime time34RE)

/-- SHDX_RE transcribed node by node:
^(?P<freq>[0-9]+\.?[0-9]*)\s+(?P<spotted>\S+)\s+(?P<date>[0-9]{2}-[A-Za-z]{3}-[0-9]{4})\s+(?P<time>[0-9]{4}Z)\s+(via\s+(?P<via>\S+)\s+)?(?P<message>.+?)\s*<(?P<spotter>\S+)>$ -/
def shdxRE : RE :=
  .seq (.group gFreq freqRE) <| .seq (rplus true wsP) <|
  .seq (.group gSpotted (rplus true nwsP)) <| .seq (rplus true wsP) <|
  .seq (.group gDate dateRE) <| .seq (rplus true wsP) <|
  .seq (.group gTime time4RE) <| .seq (rplus true wsP) <|
  .seq (ropt (.seq (rlit viaChars) (.seq (rplus true wsP)
    (.seq (.group gVia (rplus true nwsP)) (rplus true wsP))))) <|
  .seq (.group gMessage (rplus false dotP)) <| .seq (.star true wsP) <|
  .seq (rlit ltChars) <| .seq (.group gSpotter (rplus true nwsP)) (rlit gtChars)

/-- Fuel used for all concrete regex evaluations; ample for the spot
lines considered here. -/
def reFuel : Nat := 4000

/-- re.search: try a match at every start position, leftmost first. -/
def reSearch (fuel : Nat) (r : RE) : List Char → Option (List (Nat × List Char))
  | [] => reMatch fuel r [] [] (fun _ caps => some caps)
  | s@(_ :: rest) =>
    (reMatch fuel r s [] (fun _ caps => some caps)).orElse (fun _ => reSearch fuel r rest)

/-- re.match of a pattern ending in $: anchored at the start and
required to consume the whole line. -/
def reMatchFull (fuel : Nat) (r : RE) (s : List Char) : Option (List (Nat × List Char)) :=
  reMatch fuel r s [] (fun rest caps => if rest = [] then some caps else none)

/-- Captured groups of a successful TELNET_RE search. -/
structure RelayRaw where
  spotter : List Char
  freq : List Char
  spotted : List Char
  rest : List Char
  time : List Char
deriving DecidableEq

/-- Captured groups of a successful SHDX_RE match. -/
structure ShdxRaw where
  freq : List Char
  spotted : List Char
  date : List Char
  time : List Char
  via : Option (List Char)
  message : List Char
  spotter : List Char
deriving DecidableEq

/-- TELNET_RE.search followed by reading the named groups. -/
def parseTelnetLine (text : List Char) : Option RelayRaw :=
  match reSearch reFuel telnetRE text with
  | none => none
  | some caps =>
    match caps.lookup gSpotter, caps.lookup gFreq, caps.lookup gSpotted,
        caps.lookup gRest, caps.lookup gTime with
    | some sp, some fq, some sd, some rs, some tm => some ⟨sp, fq, sd, rs, tm⟩
    | _, _, _, _, _ => none

/-- SHDX_RE.match followed by reading the named groups (the via group
is absent when the optional part of the pattern did not participate,
exactly as m.group("via") is None there). -/
def parseShdxLine (text : List Char) : Option ShdxRaw :=
  match reMatchFull reFuel shdxRE text with
  | none => none
  | some caps =>
    match caps.lookup gFreq, caps.lookup gSpotted, caps.lookup gDate,
        caps.lookup gTime, caps.lookup gMessage, caps.lookup gSpotter with
    | some fq, some sd, some dt, some tm, some ms, some sp =>
      some ⟨fq, sd, dt, tm, caps.lookup gVia, ms, sp⟩
    | _, _, _, _, _, _ => none

/-- Month number of a three-letter month name, compared after
lowercasing (strptime's %b is case-insensitive); none models the
ValueError strptime raises on an unknown name. -/
def monthNum (s : List Char) : Option Nat :=
  let m := lowerChars s
  if m = ("jan").data then some 1
  else if m = ("feb").data then some 2
  else if m = ("mar").data then some 3
  else if m = ("apr").data then some 4
  else if m = ("may").data then some 5
  else if m = ("jun").data then some 6
  else if m = ("jul").data then some 7
  else if m = ("aug").data then some 8
  else if m = ("sep").data then some 9
  else if m = ("oct").data then some 10
  else if m = ("nov").data then some 11
  else if m = ("dec").data then some 12
  else none

/-- Gregorian leap-year test. -/
def isLeap (y : Nat) : Bool := (y % 4 = 0 && y % 100 ≠ 0) || y % 400 = 0

/-- Length of a month in the Gregorian calendar. -/
def monthLen (y m : Nat) : Nat :=
  if m = 2 then (if isLeap y then 29 else 28)
  else if m = 4 ∨ m = 6 ∨ m = 9 ∨ m = 11 then 30
  else 31

/-- Day index of a civil date (days since 1970-01-01, via the standard
era-based conversion); this realises the bijection between the calendar
dates used by the Python datetime values and the day field of
DateTime. -/
def daysFromCivil (y m d : Nat) : Int :=
  let yy := if m ≤ 2 then y - 1 else y
  let era := yy / 400
  let yoe := yy - era * 400
  let mp := (m + 9) % 12
  let doy := (153 * mp + 2) / 5 + d - 1
  let doe := yoe * 365 + yoe / 4 - yoe / 100 + doy
  (era * 146097 + doe : Int) - 719468

/-- strptime(s, "%d-%b-%Y %H%MZ") on the dd-Mon-yyyy and hhmmZ pieces
matched by SHDX_RE; none models the ValueError strptime raises on an
unknown month name or an out-of-range field. -/
def strptimeShdx (dateStr timeStr : List Char) : Option (Int × Nat × Nat) :=
  match dateStr, timeStr with
  | [d1, d2, '-', a, b, c, '-', y1, y2, y3, y4], [h1, h2, m1, m2, 'Z'] =>
    if [d1, d2, y1, y2, y3, y4, h1, h2, m1, m2].all Char.isDigit then
      match monthNum [a, b, c] with
      | none => none
      | some mo =>
        let d := natOfDigits [d1, d2]
        let y := natOfDigits [y1, y2, y3, y4]
        let hh := natOfDigits [h1, h2]
        let mm := natOfDigits [m1, m2]
        if 1 ≤ y ∧ 1 ≤ d ∧ d ≤ monthLen y mo ∧ hh ≤ 23 ∧ mm ≤ 59 then
          some (daysFromCivil y mo d, hh, mm)
        else none
    else none
  | _, _ => none

/-- Frequency field of a cached spot: the relay branch of the source
stores a Python str, the bulk-listing branch stores a Python int. -/
inductive FreqField where
  | fstr : List Char → FreqField
  | fint : Int → FreqField
deriving DecidableEq

/-- Python equality between a stored frequency field and a str value (a
str never equals an int in Python). -/
def freqEqStr : FreqField → List Char → Bool
  | .fstr s, q => s = q
  | .fint _, _ => false

/-- A cached spot record as built by the two parse branches (the
asynchronous enrichment fields play no role in the claims settled
here). -/
structure Spot where
  spotter : List Char
  spotted : List Char
  frequency : FreqField
  message : List Char
  whenS : List Char
  source : List Char
  band : List Char
deriving DecidableEq

/-- datetime.isoformat() of an aware UTC value: the date, a T, the time,
a fractional part of six digits exactly when the microsecond field is
nonzero, then the +00:00 offset. -/
def isoDefault (d : DateTime) : List Char :=
  intStr d.day ++ 'T' :: (pad2 d.hour ++ ':' :: (pad2 d.minute ++ ':' :: pad2 d.second))
    ++ (if d.micro = 0 then [] else '.' :: pad6 d.micro) ++ tzSuffixChars

/-- datetime.isoformat(timespec="milliseconds"): always exactly three
fractional digits, the microseconds truncated to milliseconds. -/
def isoMillis (d : DateTime) : List Char :=
  intStr d.day ++ 'T' :: (pad2 d.hour ++ ':' :: (pad2 d.minute ++ ':' :: pad2 d.second))
    ++ '.' :: pad3 (d.micro / 1000) ++ tzSuffixChars

/-- The when string stored by the relay branch:
when.isoformat().replace("+00:00", "Z"). -/
def relayWhenString (w : DateTime) : List Char :=
  replaceAll tzSuffixChars utcZChars (isoDefault w)

/-- The when string stored by the bulk-listing branch:
dt.isoformat(timespec="milliseconds").replace("+00:00", "Z"). -/
def shdxWhenString (w : DateTime) : List Char :=
  replaceAll tzSuffixChars utcZChars (isoMillis w)

/-- The relay branch of the run loop: the spot dict built from the
TELNET_RE groups (none models an exception thrown on the way, which the
surrounding except handler turns into a skipped line). -/
def mkRelaySpot (raw : RelayRaw) (now : DateTime) : Option Spot :=
  match parse_z_time raw.time now with
  | none => none
  | some w =>
    let msg := pyStrip raw.rest
    some { spotter := raw.spotter, spotted := raw.spotted,
           frequency := .fstr (natStr (intOfFloatChars raw.freq)),
           message := msg,
           whenS := relayWhenString w,
           source := detect_source_from_message msg,
           band := qrg2band_khz raw.freq }

/-- The bulk-listing branch of the run loop: strptime on date+time,
seconds and microseconds borrowed from the wall clock now, the via
token folded into the message, source fixed to cluster. -/
def mkShdxSpot (raw : ShdxRaw) (now : DateTime) : Option Spot :=
  match strptimeShdx raw.date raw.time with
  | none => none
  | some (day, hh, mm) =>
    let dt : DateTime := ⟨day, hh, mm, now.second, now.micro⟩
    let msg0 := pyStrip raw.message
    let msg := match raw.via with
      | some v => msg0 ++ spaceViaSpace ++ v
      | none => msg0
    some { spotter := raw.spotter, spotted := raw.spotted,
           frequency := .fint (intOfFloatChars raw.freq),
           message := msg,
           whenS := shdxWhenString dt,
           source := clusterChars,
           band := qrg2band_khz raw.freq }

/-- The bounded spot store: a deque with its maxlen.  The list holds
insertion order, oldest first, newest last. -/
structure SpotCache (α : Type) where
  maxlen : Nat
  items : List α
deriving DecidableEq

/-- deque.append on a bounded deque: the new element joins the newest
end and the oldest element is discarded on overflow. -/
def cacheAppend {α : Type} (c : SpotCache α) (x : α) : SpotCache α :=
  ⟨c.maxlen, (c.items ++ [x]).drop (c.items.length + 1 - c.maxlen)⟩

/-- deque(list(spots), maxlen=m): rebuilding a deque with a new bound
keeps the last m elements (the deque constructor appends left to right,
discarding from the old end on overflow). -/
def cacheResize {α : Type} (c : SpotCache α) (m : Nat) : SpotCache α :=
  ⟨m, c.items.drop (c.items.length - m)⟩

/-- Lines 326-332 of the source: under the lock, rebuild the deque when
the configured maxcache changed, then append the new spot. -/
def runIngest {α : Type} (c : SpotCache α) (desiredMax : Nat) (x : α) : SpotCache α :=
  cacheAppend (if c.maxlen ≠ desiredMax then cacheResize c desiredMax else c) x

/-- Lines 972-974 of the source (portal_config): unconditionally rebuild
the deque with the newly saved maxcache. -/
def portalResize {α : Type} (c : SpotCache α) (m : Nat) : SpotCache α := cacheResize c m

/-- datetime.fromisoformat restricted to the timestamp shapes this
program itself generates: day index, T, hh:mm:ss, an optional fraction
of one to six digits, and the +00:00 offset; none models the ValueError
raised on any other shape. -/
def fromIso (s : List Char) : Option DateTime :=
  let dpart := s.takeWhile (fun c => c ≠ 'T')
  match s.dropWhile (fun c => c ≠ 'T') with
  | 'T' :: h1 :: h2 :: ':' :: m1 :: m2 :: ':' :: s1 :: s2 :: tail =>
    if [h1, h2, m1, m2, s1, s2].all Char.isDigit then
      let micro : Option Nat :=
        if tail = tzSuffixChars then some 0
        else match tail with
          | '.' :: fracTz =>
            let frac := fracTz.takeWhile Char.isDigit
            if frac ≠ [] ∧ frac.length ≤ 6 ∧ fracTz.drop frac.length = tzSuffixChars then
              some (natOfDigits frac * 10 ^ (6 - frac.length))
            else none
          | _ => none
      match pyInt dpart, micro with
      | some day, some us =>
        let hh := natOfDigits [h1, h2]
        let mm := natOfDigits [m1, m2]
        let ss := natOfDigits [s1, s2]
        if hh ≤ 23 ∧ mm ≤ 59 ∧ ss ≤ 59 then some ⟨day, hh, mm, ss, us⟩ else none
      | _, _ => none
    else none
  | _ => none

/-- Loop body of api_spot: walk the cache keeping the record with the
strictly youngest parsed timestamp among those whose frequency field
equals (by Python equality) the query string; .error models the
exception fromisoformat would raise on an unparseable when field. -/
def apiSpotGo : List Spot → List Char → Option (DateTime × Spot) → Except Unit (Option Spot)
  | [], _, best => .ok (best.map (fun p => p.2))
  | s :: rest, q, best =>
    if freqEqStr s.frequency q then
      match fromIso (replaceAll utcZChars tzSuffixChars s.whenS) with
      | none => .error ()
      | some t =>
        match best with
        | none => apiSpotGo rest q (some (t, s))
        | some (ty, sy) =>
          if ty.toMicros < t.toMicros then apiSpotGo rest q (some (t, s))
          else apiSpotGo rest q (some (ty, sy))
    else apiSpotGo rest q best

/-- The /spot/(int qrg_khz) route: q = str(qrg_khz), then the scan
above; .ok none is the jsonify of an empty dict when nothing matched. -/
def api_spot (spots : List Spot) (qrg_khz : Nat) : Except Unit (Option Spot) :=
  apiSpotGo spots (natStr qrg_khz) none

/-- Normalized enrichment record, the result dict of dxcc_lookup. -/
structure DxccResult where
  cont : List Char
  entity : List Char
  flag : List Char
  dxcc_id : List Char
  lotw_user : Bool
  lat : Option Int
  lng : Option Int
  cqz : Option Int
deriving DecidableEq

/-- Fields of the JSON body returned by the external lookup service,
each independently optional (absent and null both map to none). -/
structure LookupData where
  cont : Option (List Char)
  dxcc : Option (List Char)
  dxcc_flag : Option (List Char)
  dxcc_id : Option Int
  lotw_member : Option Bool
  dxcc_lat : Option Int
  dxcc_long : Option Int
  dxcc_lon : Option Int
  dxcc_cqz : Option Int
deriving DecidableEq

/-- Python a or b or None on numbers, where 0 is falsy. -/
def pyOrIntNone (a b : Option Int) : Option Int :=
  match a with
  | some x =>
    if x = 0 then
      match b with
      | some y => if y = 0 then none else some y
      | none => none
    else some x
  | none =>
    match b with
    | some y => if y = 0 then none else some y
    | none => none

/-- The result-normalisation block of dxcc_lookup (defensive fallbacks
for every field). -/
def normalizeLookup (data : LookupData) : DxccResult :=
  { cont := data.cont.getD []
  , entity := to_uc_word data.dxcc
  , flag := data.dxcc_flag.getD []
  , dxcc_id :=
      match data.dxcc_id with
      | some n => if n = 0 then [] else intStr n
      | none => []
  , lotw_user := data.lotw_member.getD false
  , lat := data.dxcc_lat
  , lng := pyOrIntNone data.dxcc_long data.dxcc_lon
  , cqz :=
      match data.dxcc_cqz with
      | some n => if n = 0 then none else some n
      | none => none }

/-- Ordered-dictionary read. -/
def dictGet {α : Type} : List (List Char × α) → List Char → Option α
  | [], _ => none
  | (k0, v) :: rest, k => if k0 = k then some v else dictGet rest k

/-- Ordered-dictionary write: replace in place, append when absent. -/
def dictSet {α : Type} : List (List Char × α) → List Char → α → List (List Char × α)
  | [], k, v => [(k, v)]
  | (k0, v0) :: rest, k, v =>
    if k0 = k then (k0, v) :: rest else (k0, v0) :: dictSet rest k v

/-- The enrichment cache TTL (seconds). -/
def dxcc_cache_ttl : Nat := 3600

/-- State touched by dxcc_lookup: the memo map (call sign to stored
value and store time) and the consecutive-error counter. -/
structure DxccCacheState where
  cache : List (List Char × DxccResult × Nat)
  errors : Nat
deriving DecidableEq

/-- One dxcc_lookup outcome: the returned value, the state afterwards,
and whether an outbound HTTP request was issued. -/
structure LookupOutcome where
  result : Option DxccResult
  state : DxccCacheState
  outbound : Bool
deriving DecidableEq

/-- The miss path of dxcc_lookup: issue the outbound request; resp is
the world's answer, none standing for a non-ok status or a transport
exception (error counter incremented, nothing cached), some data for a
successful body (normalised, cached at the current time, counter
reset). -/
def dxccFetch (st : DxccCacheState) (call : List Char) (now : Nat)
    (resp : Option LookupData) : LookupOutcome :=
  match resp with
  | none => ⟨none, ⟨st.cache, st.errors + 1⟩, true⟩
  | some data =>
    let r := normalizeLookup data
    ⟨some r, ⟨dictSet st.cache call (r, now), 0⟩, true⟩

/-- dxcc_lookup from the source: a memo hit younger than the TTL is
returned with no outbound request; otherwise the fetch path runs. -/
def dxcc_lookup (st : DxccCacheState) (call : List Char) (now : Nat)
    (resp : Option LookupData) : LookupOutcome :=
  match dictGet st.cache call with
  | some vt =>
    if now - vt.2 < dxcc_cache_ttl then ⟨some vt.1, st, false⟩
    else dxccFetch st call now resp
  | none => dxccFetch st call now resp

/-- The telnet session handle, modelled by the list of byte strings
written to it. -/
structure TelnetConn where
  written : List (List Char)
deriving DecidableEq

/-- The DXClusterClient fields the write primitives read. -/
structure ClientState where
  connected : Bool
  tn : Option TelnetConn
deriving DecidableEq

/-- send_spot from the source; writeOk = false models tn.write raising
(the except branch).  The Bool result is the function's return value. -/
def send_spot (st : ClientState) (frequency callsign remarks : List Char)
    (writeOk : Bool) : Bool × ClientState :=
  if st.connected = false ∨ st.tn = none then (false, st)
  else
    match st.tn with
    | none => (false, st)
    | some conn =>
      if writeOk then
        let cmd := ("dx ").data ++ frequency ++ ' ' :: callsign ++ ' ' :: remarks ++ ['\n']
        (true, { st with tn := some ⟨conn.written ++ [cmd]⟩ })
      else (false, st)

/-- Responses of the /sendcmd route. -/
inductive CmdResp where
  | errNoCmd : CmdResp
  | errNotConnected : CmdResp
  | errWriteFailed : CmdResp
  | sent : List Char → CmdResp
deriving DecidableEq

/-- Is the response one of the error replies (HTTP 400/500). -/
def isErrResp : CmdResp → Bool
  | .sent _ => false
  | _ => true

/-- send_telnet_cmd from the source (the /sendcmd route): empty command
rejected, disconnected client rejected, otherwise the newline-completed
command is written; writeOk = false models tn.write raising. -/
def send_telnet_cmd (st : ClientState) (cmdRaw : List Char) (writeOk : Bool) :
    CmdResp × ClientState :=
  let cmd := pyStrip cmdRaw
  if cmd = [] then (.errNoCmd, st)
  else if st.connected = false ∨ st.tn = none then (.errNotConnected, st)
  else
    match st.tn with
    | none => (.errNotConnected, st)
    | some conn =>
      let cmd2 := if cmd.getLast? = some '\n' then cmd else cmd ++ ['\n']
      if writeOk then (.sent (pyStrip cmd2), { st with tn := some ⟨conn.written ++ [cmd2]⟩ })
      else (.errWriteFailed, st)

/-- Projection of an api_spot result used in statements: some of the
route's answer on normal return, none when an exception escaped. -/
def okResult : Except Unit (Option Spot) → Option (Option Spot)
  | .ok v => some v
  | .error _ => none

/-- Shape of the fractional-seconds part of a serialized timestamp:
some k when the string ends with a dot, k fractional digits and a Z;
none when there is no such fractional part.  Millisecond precision is
fracFormat = some 3, the microsecond form of isoformat() is some 6. -/
def fracFormat (s : List Char) : Option Nat :=
  match s.reverse with
  | 'Z' :: rest =>
    let frac := rest.takeWhile (fun c => c ≠ '.')
    if frac.all Char.isDigit ∧ (rest.drop frac.length).head? = some '.' then some frac.length
    else none
  | _ => none

/-- The HHMMZ literal built from an hour and a minute, the shape the
relay grammar always hands to parse_z_time. -/
def zlit (hh mm : Nat) : List Char := pad2 hh ++ pad2 mm ++ zChars

/-- The relay-grammar example line of the specification. -/
def relayLineChars : List Char := (r"DX de K1ABC: 14074.0 DL1XYZ FT8 CQ DX 1822Z").data

/-- The bulk-listing example line of the specification. -/
def shdxLineChars : List Char := (r"14074.0 DL1XYZ 11-Nov-2025 1822Z via W1AW CQ DX <K1ABC>").data

/-- Wall-clock instants used for the concrete examples. -/
def nowRelayEx : DateTime := ⟨20403, 18, 25, 7, 123456⟩

def nowShdxEx : DateTime := ⟨20000, 10, 11, 12, 345678⟩

/-- The full relay pipeline (TELNET_RE search, then the spot dict) on
the example line at the instant nowRelayEx. -/
def relaySpotEx : Option Spot :=
  (parseTelnetLine relayLineChars).bind (fun raw => mkRelaySpot raw nowRelayEx)

/-- The full bulk-listing pipeline (SHDX_RE match, then the spot dict)
on the example line at the instant nowShdxEx. -/
def shdxSpotEx : Option Spot :=
  (parseShdxLine shdxLineChars).bind (fun raw => mkShdxSpot raw nowShdxEx)

/-- The record the relay pipeline builds from the example line. -/
def relaySpotVal : Spot :=
  { spotter := (r"K1ABC").data, spotted := (r"DL1XYZ").data,
    frequency := .fstr ((r"14074").data), message := (r"FT8 CQ DX").data,
    whenS := (r"20403T18:22:07.123456Z").data, source := cqChars,
    band := (r"20m").data }

/-- The record the bulk-listing pipeline builds from the example line. -/
def shdxSpotVal : Spot :=
  { spotter := (r"K1ABC").data, spotted := (r"DL1XYZ").data,
    frequency := .fint 14074, message := (r"CQ DX via W1AW").data,
    whenS := (r"20403T18:22:12.345Z").data, source := clusterChars,
    band := (r"20m").data }

/-- Further literals used in statements. -/
def k1abcChars : List Char := (r"K1ABC").data

def dl1xyzChars : List Char := (r"DL1XYZ").data

def freq14074Chars : List Char := (r"14074").data

def band20mChars : List Char := (r"20m").data

def viaW1AWChars : List Char := (r"via W1AW").data

def z2460Chars : List Char := (r"2460Z").data

def z2359Chars : List Char := (r"2359Z").data

def z0005Chars : List Char := (r"0005Z").data



/-! Helper lemmas shared by several claims. -/

theorem digitChar_mem (n : Nat) : digitChar n ∈ digitsChars := by
  unfold digitChar
  split_ifs <;> decide

theorem digitsChars_props : ∀ c ∈ digitsChars,
    c.isDigit = true ∧ c ≠ 'Z' ∧ c ≠ '+' ∧ c ≠ '.' ∧ c ≠ '-' ∧
    c.isWhitespace = false ∧ c ≠ ':' ∧ c ≠ 'T' := by decide

theorem digitChar_isDigit (n : Nat) : (digitChar n).isDigit = true :=
  (digitsChars_props _ (digitChar_mem n)).1

theorem digitChar_ne_Z (n : Nat) : ¬ digitChar n = 'Z' :=
  (digitsChars_props _ (digitChar_mem n)).2.1

theorem digitChar_ne_plus (n : Nat) : ¬ digitChar n = '+' :=
  (digitsChars_props _ (digitChar_mem n)).2.2.1

theorem digitChar_ne_dot (n : Nat) : ¬ digitChar n = '.' :=
  (digitsChars_props _ (digitChar_mem n)).2.2.2.1

theorem digitChar_not_ws (n : Nat) : (digitChar n).isWhitespace = false :=
  (digitsChars_props _ (digitChar_mem n)).2.2.2.2.2.1

theorem digitVal_digitChar (n : Nat) : digitVal (digitChar n) = n % 10 := by
  have h : n % 10 < 10 := Nat.mod_lt _ (by omega)
  unfold digitChar digitVal
  split_ifs with h0 h1 h2 h3 h4 h5 h6 h7 h8
  · rw [h0]; decide
  · rw [h1]; decide
  · rw [h2]; decide
  · rw [h3]; decide
  · rw [h4]; decide
  · rw [h5]; decide
  · rw [h6]; decide
  · rw [h7]; decide
  · rw [h8]; decide
  · have h9 : n % 10 = 9 := by omega
    rw [h9]; decide

theorem dictGet_dictSet {α : Type} (m : List (List Char × α)) (k : List Char) (v : α) :
    dictGet (dictSet m k v) k = some v := by
  induction m with
  | nil => simp [dictSet, dictGet]
  | cons hd tl ih =>
    rcases hd with ⟨k0, v0⟩
    unfold dictSet
    split_ifs with h
    · unfold dictGet; rw [if_pos h]
    · unfold dictGet; rw [if_neg h]; exact ih

/-- C1: the Spot Cache always holds at most the configured capacity of
records in strict insertion order: appending to a full cache evicts
exactly the oldest record and preserves the order of the rest;
resizing the capacity to a smaller value k retains exactly the k
most-recently-inserted records in order, and resizing to a larger
value retains all existing records. -/
theorem c1_spot_cache_bounded_fifo {α : Type} (c : SpotCache α) (x : α) (k : Nat) :
    ((cacheAppend c x).maxlen = c.maxlen ∧
      (c.items.length ≤ c.maxlen → (cacheAppend c x).items.length ≤ c.maxlen)) ∧
    (c.items.length = c.maxlen → 0 < c.maxlen →
      (cacheAppend c x).items = c.items.drop 1 ++ [x]) ∧
    (c.items.length < c.maxlen → (cacheAppend c x).items = c.items ++ [x]) ∧
    ((cacheResize c k).maxlen = k ∧
      (k ≤ c.items.length →
        (cacheResize c k).items = c.items.drop (c.items.length - k) ∧
        (cacheResize c k).items.length = k ∧
        (cacheResize c k).items <:+ c.items)) ∧
    (c.items.length ≤ k → (cacheResize c k).items = c.items) := by
  refine ⟨⟨rfl, fun h => ?_⟩, fun h1 h2 => ?_, fun h => ?_, ⟨rfl, fun h => ?_⟩, fun h => ?_⟩
  · simp only [cacheAppend, List.length_drop, List.length_append, List.length_singleton]
    omega
  · simp only [cacheAppend]
    rw [show c.items.length + 1 - c.maxlen = 1 by omega]
    rw [List.drop_append_eq_append_drop]
    rw [show 1 - c.items.length = 0 by omega, List.drop_zero]
  · simp only [cacheAppend]
    rw [show c.items.length + 1 - c.maxlen = 0 by omega, List.drop_zero]
  · refine ⟨rfl, ?_, List.drop_suffix _ _⟩
    simp only [cacheResize, List.length_drop]
    omega
  · simp only [cacheResize]
    rw [show c.items.length - k = 0 by omega, List.drop_zero]

theorem c1_spot_cache_bounded_fifo_witness :
    (cacheAppend (⟨2, [10, 20]⟩ : SpotCache Nat) 30).items = [20, 30] ∧
    (cacheResize (⟨3, [10, 20, 30]⟩ : SpotCache Nat) 2).items = [20, 30] ∧
    (cacheResize (⟨2, [10, 20]⟩ : SpotCache Nat) 5).items = [10, 20] := by
  have h1 := (c1_spot_cache_bounded_fifo (⟨2, [10, 20]⟩ : SpotCache Nat) 30 2).2.1
    (by decide) (by decide)
  have h2 := ((c1_spot_cache_bounded_fifo (⟨3, [10, 20, 30]⟩ : SpotCache Nat) 0 2).2.2.2.1).2
    (by decide)
  have h3 := (c1_spot_cache_bounded_fifo (⟨2, [10, 20]⟩ : SpotCache Nat) 0 5).2.2.2.2
    (by decide)
  exact ⟨h1.trans (by decide), h2.1.trans (by decide), h3⟩

/-- C9: every write operation issued while no live cluster session
exists (send-spot and raw command write) returns an explicit failure
result immediately, without changing any state. -/
theorem c9_disconnected_writes_fail (st : ClientState)
    (frequency callsign remarks cmdRaw : List Char) (w1 w2 : Bool)
    (h : st.connected = false ∨ st.tn = none) :
    send_spot st frequency callsign remarks w1 = (false, st) ∧
    isErrResp (send_telnet_cmd st cmdRaw w2).1 = true ∧
    (send_telnet_cmd st cmdRaw w2).2 = st := by
  refine ⟨?_, ?_, ?_⟩
  · unfold send_spot
    rw [if_pos h]
  · simp only [send_telnet_cmd]
    split_ifs with h1 <;> rfl
  · simp only [send_telnet_cmd]
    split_ifs with h1 <;> rfl

theorem c9_disconnected_writes_fail_witness :
    send_spot ⟨false, none⟩ [] [] [] true = (false, ⟨false, none⟩) ∧
    isErrResp (send_telnet_cmd ⟨false, none⟩ [] true).1 = true ∧
    (send_telnet_cmd ⟨false, none⟩ [] true).2 = ⟨false, none⟩ :=
  c9_disconnected_writes_fail ⟨false, none⟩ [] [] [] [] true true (Or.inl rfl)

theorem dxcc_lookup_hit (st : DxccCacheState) (call : List Char) (now : Nat)
    (resp : Option LookupData) (v : DxccResult) (t : Nat)
    (h : dictGet st.cache call = some (v, t)) (hf : now - t < dxcc_cache_ttl) :
    dxcc_lookup st call now resp = ⟨some v, st, false⟩ := by
  unfold dxcc_lookup
  simp only [h]
  rw [if_pos hf]

theorem dxcc_lookup_miss (st : DxccCacheState) (call : List Char) (now : Nat)
    (resp : Option LookupData) (h : dictGet st.cache call = none) :
    dxcc_lookup st call now resp = dxccFetch st call now resp := by
  unfold dxcc_lookup
  simp only [h]

theorem dxcc_lookup_stale (st : DxccCacheState) (call : List Char) (now : Nat)
    (resp : Option LookupData) (v : DxccResult) (t : Nat)
    (h : dictGet st.cache call = some (v, t)) (hs : ¬ now - t < dxcc_cache_ttl) :
    dxcc_lookup st call now resp = dxccFetch st call now resp := by
  unfold dxcc_lookup
  simp only [h]
  rw [if_neg hs]

theorem dxccFetch_outbound (st : DxccCacheState) (call : List Char) (now : Nat)
    (resp : Option LookupData) : (dxccFetch st call now resp).outbound = true := by
  cases resp <;> rfl

/-- C5: an enrichment lookup whose cache entry for the queried call
sign is younger than the 1-hour TTL returns that entry without issuing
any outbound request; two lookups for the same call sign within one
TTL window issue exactly one outbound call, and a further lookup after
the TTL has expired issues a new outbound call. -/
theorem c5_enrichment_ttl
    (st : DxccCacheState) (call : List Char) (v : DxccResult) (tstored now : Nat)
    (st0 : DxccCacheState) (call0 : List Char) (data : LookupData)
    (t0 t1 t2 : Nat) (resp1 resp2 : Option LookupData)
    (hhit : dictGet st.cache call = some (v, tstored))
    (hfresh : now < tstored + dxcc_cache_ttl)
    (hmiss : dictGet st0.cache call0 = none)
    (h01 : t1 < t0 + dxcc_cache_ttl) (h02 : t0 + dxcc_cache_ttl ≤ t2) :
    dxcc_lookup st call now resp1 = ⟨some v, st, false⟩ ∧
    (dxcc_lookup st0 call0 t0 (some data)).outbound = true ∧
    (dxcc_lookup (dxcc_lookup st0 call0 t0 (some data)).state call0 t1 resp2 =
      ⟨some (normalizeLookup data), (dxcc_lookup st0 call0 t0 (some data)).state, false⟩) ∧
    (dxcc_lookup (dxcc_lookup (dxcc_lookup st0 call0 t0 (some data)).state call0 t1 resp2).state
        call0 t2 resp1).outbound = true := by
  have hlt : now - tstored < dxcc_cache_ttl := by
    unfold dxcc_cache_ttl at hfresh ⊢
    omega
  have hone : dxcc_lookup st0 call0 t0 (some data) =
      ⟨some (normalizeLookup data),
        ⟨dictSet st0.cache call0 (normalizeLookup data, t0), 0⟩, true⟩ := by
    rw [dxcc_lookup_miss st0 call0 t0 (some data) hmiss]
    rfl
  have hget : dictGet (dictSet st0.cache call0 (normalizeLookup data, t0)) call0 =
      some (normalizeLookup data, t0) := dictGet_dictSet _ _ _
  have htwo : dxcc_lookup (dxcc_lookup st0 call0 t0 (some data)).state call0 t1 resp2 =
      ⟨some (normalizeLookup data), (dxcc_lookup st0 call0 t0 (some data)).state, false⟩ := by
    rw [hone]
    exact dxcc_lookup_hit _ call0 t1 resp2 _ t0 hget
      (by unfold dxcc_cache_ttl at h01 ⊢; omega)
  refine ⟨?_, ?_, htwo, ?_⟩
  · exact dxcc_lookup_hit st call now resp1 v tstored hhit hlt
  · rw [hone]
  · rw [htwo, hone]
    rw [dxcc_lookup_stale _ call0 t2 resp1 _ t0 hget
      (by unfold dxcc_cache_ttl at h02 ⊢; omega)]
    exact dxccFetch_outbound _ _ _ _

theorem c5_enrichment_ttl_witness :
    dxcc_lookup ⟨[(k1abcChars, (⟨[], [], [], [], false, none, none, none⟩, 100))], 5⟩
      k1abcChars 200 none =
      ⟨some ⟨[], [], [], [], false, none, none, none⟩,
        ⟨[(k1abcChars, (⟨[], [], [], [], false, none, none, none⟩, 100))], 5⟩, false⟩ :=
  (c5_enrichment_ttl _ k1abcChars _ 100 200 ⟨[], 0⟩ k1abcChars
    ⟨none, none, none, none, none, none, none, none, none⟩ 0 1 3600 none none
    (by decide) (by decide) (by decide) (by decide) (by decide)).1

/-- C8: band derivation maps a numeric frequency into exactly one of
the fixed, non-overlapping kHz ranges from 160m through 70cm and
returns the corresponding label, while non-numeric or out-of-range
input returns the empty string and never raises; in particular 14074
yields 20m, 999 yields the empty string, 1500 yields 160m, and 7100
yields 40m. -/
theorem c8_band_ranges :
    (∀ (q : ℚ) (e : ℚ × ℚ × List Char), e ∈ bandRanges → inBandRange e q →
      qrg2band q = e.2.2) ∧
    (∀ (q : ℚ) (e1 e2 : ℚ × ℚ × List Char), e1 ∈ bandRanges → e2 ∈ bandRanges →
      inBandRange e1 q → inBandRange e2 q → e1 = e2) ∧
    (∀ q : ℚ, (∀ e ∈ bandRanges, ¬ inBandRange e q) → qrg2band q = []) ∧
    (∀ s : List Char, pyFloat s = none → qrg2band_khz s = []) ∧
    qrg2band 14074 = band20mChars ∧ qrg2band 999 = [] ∧
    qrg2band 1500 = (r"160m").data ∧ qrg2band 7100 = (r"40m").data ∧
    qrg2band_khz freq14074Chars = band20mChars ∧ qrg2band_khz (r"abc").data = [] := by
  have hmain : ∀ (q : ℚ) (e : ℚ × ℚ × List Char), e ∈ bandRanges → inBandRange e q →
      qrg2band q = e.2.2 := by
    intro q e he hin
    obtain ⟨hl, hr⟩ := hin
    simp only [bandRanges, List.mem_cons, List.not_mem_nil, or_false] at he
    rcases he with rfl | rfl | rfl | rfl | rfl | rfl | rfl | rfl | rfl | rfl | rfl | rfl | rfl
    all_goals simp only at hl hr
    all_goals unfold qrg2band
    · rw [if_pos ⟨hl, hr⟩]
    · rw [if_neg (by rintro ⟨a, b⟩; linarith), if_pos ⟨hl, hr⟩]
    · rw [if_neg (by rintro ⟨a, b⟩; linarith), if_neg (by rintro ⟨a, b⟩; linarith), if_pos ⟨hl, hr⟩]
    · rw [if_neg (by rintro ⟨a, b⟩; linarith), if_neg (by rintro ⟨a, b⟩; linarith), if_neg (by rintro ⟨a, b⟩; linarith), if_pos ⟨hl, hr⟩]
    · rw [if_neg (by rintro ⟨a, b⟩; linarith), if_neg (by rintro ⟨a, b⟩; linarith), if_neg (by rintro ⟨a, b⟩; linarith), if_neg (by rintro ⟨a, b⟩; linarith), if_pos ⟨hl, hr⟩]
    · rw [if_neg (by rintro ⟨a, b⟩; linarith), if_neg (by rintro ⟨a, b⟩; linarith), if_neg (by rintro ⟨a, b⟩; linarith), if_neg (by rintro ⟨a, b⟩; linarith), if_neg (by rintro ⟨a, b⟩; linarith), if_pos ⟨hl, hr⟩]
    · rw [if_neg (by rintro ⟨a, b⟩; linarith), if_neg (by rintro ⟨a, b⟩; linarith), if_neg (by rintro ⟨a, b⟩; linarith), if_neg (by rintro ⟨a, b⟩; linarith), if_neg (by rintro ⟨a, b⟩; linarith), if_neg (by rintro ⟨a, b⟩; linarith), if_pos ⟨hl, hr⟩]
    · rw [if_neg (by rintro ⟨a, b⟩; linarith), if_neg (by rintro ⟨a, b⟩; linarith), if_neg (by rintro ⟨a, b⟩; linarith), if_neg (by rintro ⟨a, b⟩; linarith), if_neg (by rintro ⟨a, b⟩; linarith), if_neg (by rintro ⟨a, b⟩; linarith), if_neg (by rintro ⟨a, b⟩; linarith), if_pos ⟨hl, hr⟩]
    · rw [if_neg (by rintro ⟨a, b⟩; linarith), if_neg (by rintro ⟨a, b⟩; linarith), if_neg (by rintro ⟨a, b⟩; linarith), if_neg (by rintro ⟨a, b⟩; linarith), if_neg (by rintro ⟨a, b⟩; linarith), if_neg (by rintro ⟨a, b⟩; linarith), if_neg (by rintro ⟨a, b⟩; linarith), if_neg (by rintro ⟨a, b⟩; linarith), if_pos ⟨hl, hr⟩]
    · rw [if_neg (by rintro ⟨a, b⟩; linarith), if_neg (by rintro ⟨a, b⟩; linarith), if_neg (by rintro ⟨a, b⟩; linarith), if_neg (by rintro ⟨a, b⟩; linarith), if_neg (by rintro ⟨a, b⟩; linarith), if_neg (by rintro ⟨a, b⟩; linarith), if_neg (by rintro ⟨a, b⟩; linarith), if_neg (by rintro ⟨a, b⟩; linarith), if_neg (by rintro ⟨a, b⟩; linarith), if_pos ⟨hl, hr⟩]
    · rw [if_neg (by rintro ⟨a, b⟩; linarith), if_neg (by rintro ⟨a, b⟩; linarith), if_neg (by rintro ⟨a, b⟩; linarith), if_neg (by rintro ⟨a, b⟩; linarith), if_neg (by rintro ⟨a, b⟩; linarith), if_neg (by rintro ⟨a, b⟩; linarith), if_neg (by rintro ⟨a, b⟩; linarith), if_neg (by rintro ⟨a, b⟩; linarith), if_neg (by rintro ⟨a, b⟩; linarith), if_neg (by rintro ⟨a, b⟩; linarith), if_pos ⟨hl, hr⟩]
    · rw [if_neg (by rintro ⟨a, b⟩; linarith), if_neg (by rintro ⟨a, b⟩; linarith), if_neg (by rintro ⟨a, b⟩; linarith), if_neg (by rintro ⟨a, b⟩; linarith), if_neg (by rintro ⟨a, b⟩; linarith), if_neg (by rintro ⟨a, b⟩; linarith), if_neg (by rintro ⟨a, b⟩; linarith), if_neg (by rintro ⟨a, b⟩; linarith), if_neg (by rintro ⟨a, b⟩; linarith), if_neg (by rintro ⟨a, b⟩; linarith), if_neg (by rintro ⟨a, b⟩; linarith), if_pos ⟨hl, hr⟩]
    · rw [if_neg (by rintro ⟨a, b⟩; linarith), if_neg (by rintro ⟨a, b⟩; linarith), if_neg (by rintro ⟨a, b⟩; linarith), if_neg (by rintro ⟨a, b⟩; linarith), if_neg (by rintro ⟨a, b⟩; linarith), if_neg (by rintro ⟨a, b⟩; linarith), if_neg (by rintro ⟨a, b⟩; linarith), if_neg (by rintro ⟨a, b⟩; linarith), if_neg (by rintro ⟨a, b⟩; linarith), if_neg (by rintro ⟨a, b⟩; linarith), if_neg (by rintro ⟨a, b⟩; linarith), if_neg (by rintro ⟨a, b⟩; linarith), if_pos ⟨hl, hr⟩]
  have hlabels : ∀ e1 ∈ bandRanges, ∀ e2 ∈ bandRanges,
      (e1 : ℚ × ℚ × List Char).2.2 = (e2 : ℚ × ℚ × List Char).2.2 → e1 = e2 := by decide
  refine ⟨hmain, ?_, ?_, ?_, by decide, by decide, by decide, by decide, by decide, by decide⟩
  · intro q e1 e2 h1 h2 hq1 hq2
    exact hlabels e1 h1 e2 h2 ((hmain q e1 h1 hq1).symm.trans (hmain q e2 h2 hq2))
  · intro q hq
    unfold qrg2band
    rw [if_neg (show ¬(1000 < q ∧ q < 2000) from hq (1000, 2000, (r"160m").data) (by simp [bandRanges])),
      if_neg (show ¬(3000 < q ∧ q < 4000) from hq (3000, 4000, (r"80m").data) (by simp [bandRanges])),
      if_neg (show ¬(6000 < q ∧ q < 8000) from hq (6000, 8000, (r"40m").data) (by simp [bandRanges])),
      if_neg (show ¬(9000 < q ∧ q < 11000) from hq (9000, 11000, (r"30m").data) (by simp [bandRanges])),
      if_neg (show ¬(13000 < q ∧ q < 15000) from hq (13000, 15000, (r"20m").data) (by simp [bandRanges])),
      if_neg (show ¬(17000 < q ∧ q < 19000) from hq (17000, 19000, (r"17m").data) (by simp [bandRanges])),
      if_neg (show ¬(20000 < q ∧ q < 22000) from hq (20000, 22000, (r"15m").data) (by simp [bandRanges])),
      if_neg (show ¬(23000 < q ∧ q < 25000) from hq (23000, 25000, (r"12m").data) (by simp [bandRanges])),
      if_neg (show ¬(27000 < q ∧ q < 30000) from hq (27000, 30000, (r"10m").data) (by simp [bandRanges])),
      if_neg (show ¬(49000 < q ∧ q < 52000) from hq (49000, 52000, (r"6m").data) (by simp [bandRanges])),
      if_neg (show ¬(69000 < q ∧ q < 71000) from hq (69000, 71000, (r"4m").data) (by simp [bandRanges])),
      if_neg (show ¬(140000 < q ∧ q < 150000) from hq (140000, 150000, (r"2m").data) (by simp [bandRanges])),
      if_neg (show ¬(430000 < q ∧ q < 440000) from hq (430000, 440000, (r"70cm").data) (by simp [bandRanges]))]
  · intro s h
    unfold qrg2band_khz
    rw [h]

theorem c8_band_ranges_witness : qrg2band 1500 = (r"160m").data :=
  c8_band_ranges.1 1500 (1000, 2000, (r"160m").data) (by decide) ⟨by norm_num, by norm_num⟩

theorem digitChar_ne_dash (n : Nat) : ¬ digitChar n = '-' :=
  (digitsChars_props _ (digitChar_mem n)).2.2.2.2.1

theorem natOfDigits_digitPair (n : Nat) (h : n < 100) :
    natOfDigits [digitChar (n / 10), digitChar n] = n := by
  simp only [natOfDigits, List.foldl, digitVal_digitChar]
  omega

theorem pyStrip_digitPair (n : Nat) :
    pyStrip [digitChar (n / 10), digitChar n] = [digitChar (n / 10), digitChar n] := by
  unfold pyStrip
  simp [List.dropWhile_cons, digitChar_not_ws]

theorem pyInt_digitPair (n : Nat) (h : n < 100) :
    pyInt [digitChar (n / 10), digitChar n] = some (n : Int) := by
  unfold pyInt
  simp [pyStrip_digitPair, digitChar_ne_dash, digitChar_ne_plus, digitChar_isDigit,
    natOfDigits_digitPair n h]

theorem rstripZ_zlit (hh mm : Nat) :
    rstripZ (zlit hh mm) =
      [digitChar (hh / 10), digitChar hh, digitChar (mm / 10), digitChar mm] := by
  unfold zlit pad2 zChars rstripZ
  simp [digitChar_ne_Z]

theorem parse_z_time_zlit (hh mm : Nat) (h1 : hh < 24) (h2 : mm < 60) (now : DateTime) :
    parse_z_time (zlit hh mm) now =
      some (if (⟨now.day, hh, mm, now.second, now.micro⟩ : DateTime).toMicros - now.toMicros >
              twelveHoursMicros
            then ⟨now.day - 1, hh, mm, now.second, now.micro⟩
            else ⟨now.day, hh, mm, now.second, now.micro⟩) := by
  simp only [parse_z_time, rstripZ_zlit]
  norm_num [List.take, List.drop]
  rw [pyInt_digitPair hh (by omega), pyInt_digitPair mm (by omega)]
  simp only [Int.toNat_natCast]
  rw [if_pos ⟨by omega, by omega, by omega, by omega⟩]

/-- C3: timestamp reconstruction overlays the parsed hour and minute on
the current UTC date and, exactly when the resulting timestamp is more
than 12 hours ahead of now, subtracts one day; in particular, literal
2359Z reconstructed when now is 00:05 of the next day yields a
timestamp on the previous day, and literal 0005Z reconstructed at
00:10 of the same day yields a same-day timestamp. -/
theorem c3_timestamp_rollover :
    (∀ (now : DateTime) (hh mm : Nat), hh < 24 → mm < 60 →
      parse_z_time (zlit hh mm) now =
        some (if (⟨now.day, hh, mm, now.second, now.micro⟩ : DateTime).toMicros - now.toMicros >
                twelveHoursMicros
              then ⟨now.day - 1, hh, mm, now.second, now.micro⟩
              else ⟨now.day, hh, mm, now.second, now.micro⟩)) ∧
    parse_z_time z2359Chars ⟨101, 0, 5, 0, 0⟩ = some ⟨100, 23, 59, 0, 0⟩ ∧
    parse_z_time z0005Chars ⟨100, 0, 10, 0, 0⟩ = some ⟨100, 0, 5, 0, 0⟩ :=
  ⟨fun now hh mm h1 h2 => parse_z_time_zlit hh mm h1 h2 now, by decide, by decide⟩

theorem c3_timestamp_rollover_witness :
    parse_z_time (zlit 18 22) ⟨100, 18, 25, 7, 9⟩ = some ⟨100, 18, 22, 7, 9⟩ :=
  (c3_timestamp_rollover.1 ⟨100, 18, 25, 7, 9⟩ 18 22 (by omega) (by omega)).trans (by decide)

/-- C4 as stated is false: parse_z_time raises a ValueError (modelled
as none) on the all-digit literal 2460Z, whose hour 24 is out of range
for the datetime constructor, so the reconstructor is not total. -/
theorem c4_counterexample_raises :
    parse_z_time z2460Chars ⟨0, 0, 0, 0, 0⟩ = none := by decide

/-- C4 amended: whenever the literal after stripping trailing Z is not
exactly 3 or 4 characters long the reconstructor returns now
unchanged, and on 4-digit literals denoting a valid time it returns a
timestamp; but it is not total: a 3-4 character literal denoting an
out-of-range time, such as 2460Z, raises. -/
theorem c4_fallback_not_total :
    (∀ (s : List Char) (now : DateTime),
      ¬((rstripZ s).length = 3 ∨ (rstripZ s).length = 4) → parse_z_time s now = some now) ∧
    (∀ (now : DateTime) (hh mm : Nat), hh < 24 → mm < 60 →
      parse_z_time (zlit hh mm) now ≠ none) ∧
    parse_z_time z2460Chars ⟨0, 0, 0, 0, 0⟩ = none := by
  refine ⟨?_, ?_, by decide⟩
  · intro s now h
    simp only [parse_z_time]
    rw [if_neg h]
  · intro now hh mm h1 h2
    rw [parse_z_time_zlit hh mm h1 h2 now]
    simp

theorem c4_fallback_not_total_witness :
    parse_z_time ((r"12345Z").data) ⟨7, 1, 2, 3, 4⟩ = some ⟨7, 1, 2, 3, 4⟩ :=
  c4_fallback_not_total.1 ((r"12345Z").data) ⟨7, 1, 2, 3, 4⟩ (by decide)

/-- C6: parsing the relay-grammar line
DX de K1ABC: 14074.0 DL1XYZ FT8 CQ DX 1822Z yields a spot record with
spotter K1ABC, spotted DL1XYZ, frequency the string 14074 (float then
truncated to an integer rendered as a string), source cq and band 20m;
and for every relay record the source is classified by a
case-insensitive substring scan of the free text, pota taking priority
over cq, defaulting to cluster. -/
theorem c6_relay_example_and_source :
    ((parseTelnetLine relayLineChars).bind (fun raw => mkRelaySpot raw nowRelayEx)).map
        (fun s => (s.spotter, s.spotted, s.frequency, s.source, s.band)) =
      some (k1abcChars, dl1xyzChars, .fstr freq14074Chars, cqChars, band20mChars) ∧
    (∀ (raw : RelayRaw) (now : DateTime) (s : Spot), mkRelaySpot raw now = some s →
      s.source = detect_source_from_message (pyStrip raw.rest)) ∧
    (∀ msg : List Char,
      (detect_source_from_message msg = potaChars ↔
        containsSub (lowerChars msg) potaChars = true) ∧
      (detect_source_from_message msg = cqChars ↔
        containsSub (lowerChars msg) potaChars = false ∧
          containsSub (lowerChars msg) cqChars = true) ∧
      (detect_source_from_message msg = clusterChars ↔
        containsSub (lowerChars msg) potaChars = false ∧
          containsSub (lowerChars msg) cqChars = false)) := by
  refine ⟨by decide, ?_, ?_⟩
  · intro raw now s h
    unfold mkRelaySpot at h
    cases hp : parse_z_time raw.time now with
    | none =>
      rw [hp] at h
      exact Option.noConfusion h
    | some w =>
      rw [hp] at h
      rw [← Option.some.inj h]
  · intro msg
    cases ha : containsSub (lowerChars msg) potaChars <;>
      cases hb : containsSub (lowerChars msg) cqChars <;>
      refine ⟨?_, ?_, ?_⟩ <;>
      simp [detect_source_from_message, ha, hb] <;>
      decide

theorem c6_relay_example_and_source_witness :
    detect_source_from_message ((r"FT8 CQ DX").data) = cqChars := by
  have h := (c6_relay_example_and_source.2.2 ((r"FT8 CQ DX").data)).2.1
  exact h.mpr (by decide)

/-- C7: parsing the bulk-listing line
14074.0 DL1XYZ 11-Nov-2025 1822Z via W1AW CQ DX lt-K1ABC-gt yields a
spot record with spotter K1ABC, spotted DL1XYZ, a message ending in
via W1AW, and source cluster; for every bulk-listing record, when a
relay token is present the message becomes message via relay, and the
source is always cluster. -/
theorem c7_bulk_example_via_and_source :
    ((parseShdxLine shdxLineChars).bind (fun raw => mkShdxSpot raw nowShdxEx)).map
        (fun s => (s.spotter, s.spotted, s.message, s.source)) =
      some (k1abcChars, dl1xyzChars, (r"CQ DX via W1AW").data, clusterChars) ∧
    viaW1AWChars <:+ (r"CQ DX via W1AW").data ∧
    (∀ (raw : ShdxRaw) (now : DateTime) (s : Spot), mkShdxSpot raw now = some s →
      s.source = clusterChars) ∧
    (∀ (raw : ShdxRaw) (v : List Char) (now : DateTime) (s : Spot), raw.via = some v →
      mkShdxSpot raw now = some s →
      s.message = pyStrip raw.message ++ spaceViaSpace ++ v) := by
  refine ⟨by decide, by decide, ?_, ?_⟩
  · intro raw now s h
    unfold mkShdxSpot at h
    cases hp : strptimeShdx raw.date raw.time with
    | none =>
      rw [hp] at h
      exact Option.noConfusion h
    | some triple =>
      rcases triple with ⟨day, hh, mm⟩
      rw [hp] at h
      rw [← Option.some.inj h]
  · intro raw v now s hvia h
    unfold mkShdxSpot at h
    cases hp : strptimeShdx raw.date raw.time with
    | none =>
      rw [hp] at h
      exact Option.noConfusion h
    | some triple =>
      rcases triple with ⟨day, hh, mm⟩
      rw [hp] at h
      rw [hvia] at h
      rw [← Option.some.inj h]

theorem c7_bulk_example_via_and_source_witness :
    (mkShdxSpot ⟨freq14074Chars, dl1xyzChars, (r"11-Nov-2025").data, (r"1822Z").data,
        some ((r"W1AW").data), (r"CQ DX").data, k1abcChars⟩ nowShdxEx).map
      (fun s => s.message) = some ((r"CQ DX via W1AW").data) := by
  have h := c7_bulk_example_via_and_source.2.2.2
    ⟨freq14074Chars, dl1xyzChars, (r"11-Nov-2025").data, (r"1822Z").data,
      some ((r"W1AW").data), (r"CQ DX").data, k1abcChars⟩
    ((r"W1AW").data) nowShdxEx
  cases hm : mkShdxSpot ⟨freq14074Chars, dl1xyzChars, (r"11-Nov-2025").data, (r"1822Z").data,
      some ((r"W1AW").data), (r"CQ DX").data, k1abcChars⟩ nowShdxEx with
  | none => exact absurd hm (by decide)
  | some s =>
    have h2 := h s rfl hm
    show some s.message = some ((r"CQ DX via W1AW").data)
    rw [h2]
    decide

/-- C2 fails on the code: the relay branch stores the frequency as a
string while the bulk-listing branch stores a Python int, and api_spot
compares the stored field with str(qrg_khz), so a bulk-listing record
never equals the query and the freshest-record operation cannot return
it; the same query does return the relay-built record.  Both records
here are built by the real parse pipelines from the two example
lines. -/
theorem c2_bulk_record_unreachable :
    shdxSpotEx = some shdxSpotVal ∧
    shdxSpotVal.frequency = FreqField.fint 14074 ∧
    okResult (api_spot [shdxSpotVal] 14074) = some none ∧
    relaySpotEx = some relaySpotVal ∧
    okResult (api_spot [relaySpotVal] 14074) = some (some relaySpotVal) := by decide

theorem replaceAllF_nil (pat rep : List Char) (fuel : Nat) :
    replaceAllF pat rep fuel [] = [] := by
  cases fuel <;> rfl

theorem replaceAllF_tz (s : List Char) (h : '+' ∉ s) (fuel : Nat)
    (hf : s.length + 6 ≤ fuel) :
    replaceAllF tzSuffixChars utcZChars fuel (s ++ tzSuffixChars) = s ++ ['Z'] := by
  induction s generalizing fuel with
  | nil =>
    obtain ⟨f, rfl⟩ : ∃ f, fuel = f + 1 := ⟨fuel - 1, by omega⟩
    simp [replaceAllF, tzSuffixChars, utcZChars, beginsWith, replaceAllF_nil]
  | cons c cs ih =>
    have hc : ¬ ('+' = c) := fun hc => h (hc ▸ List.mem_cons_self _ _)
    have hcs : '+' ∉ cs := fun hm => h (List.mem_cons_of_mem _ hm)
    obtain ⟨f, rfl⟩ : ∃ f, fuel = f + 1 := ⟨fuel - 1, by omega⟩
    have hlen : cs.length + 6 ≤ f := by
      simp only [List.length_cons] at hf
      omega
    show replaceAllF tzSuffixChars utcZChars (f + 1) (c :: (cs ++ tzSuffixChars)) =
      c :: (cs ++ ['Z'])
    unfold replaceAllF
    rw [if_neg (by simp [tzSuffixChars, beginsWith, eq_false hc])]
    rw [ih hcs f hlen]

theorem replaceAll_tz (s : List Char) (h : '+' ∉ s) :
    replaceAll tzSuffixChars utcZChars (s ++ tzSuffixChars) = s ++ ['Z'] :=
  replaceAllF_tz s h _ (by simp [tzSuffixChars])

theorem mem_natCharsAux (fuel n : Nat) (c : Char) (hc : c ∈ natCharsAux fuel n) :
    c ∈ digitsChars := by
  induction fuel generalizing n with
  | zero => simp [natCharsAux] at hc
  | succ f ih =>
    unfold natCharsAux at hc
    split_ifs at hc with h
    · simp only [List.mem_singleton] at hc
      exact hc ▸ digitChar_mem n
    · rcases List.mem_append.mp hc with h1 | h1
      · exact ih _ h1
      · simp only [List.mem_singleton] at h1
        exact h1 ▸ digitChar_mem n

theorem plus_not_mem_natStr (n : Nat) : '+' ∉ natStr n := fun h =>
  absurd (mem_natCharsAux _ _ _ h) (by decide)

theorem plus_not_mem_intStr (d : Int) : '+' ∉ intStr d := by
  unfold intStr
  split_ifs <;> intro h
  · rcases List.mem_cons.mp h with h1 | h1
    · exact absurd h1 (by decide)
    · exact plus_not_mem_natStr _ h1
  · exact plus_not_mem_natStr _ h

theorem mem_pad2 (n : Nat) (c : Char) (h : c ∈ pad2 n) : c ∈ digitsChars := by
  unfold pad2 at h
  rcases List.mem_cons.mp h with h1 | h1
  · exact h1 ▸ digitChar_mem _
  · simp only [List.mem_singleton] at h1
    exact h1 ▸ digitChar_mem _

theorem takeWhile_ne_dot_append (l1 l2 : List Char) (h : ∀ c ∈ l1, ¬ c = '.') :
    (l1 ++ '.' :: l2).takeWhile (fun c => c ≠ '.') = l1 := by
  induction l1 with
  | nil => simp [List.takeWhile]
  | cons a l ih =>
    have ha := h a (List.mem_cons_self _ _)
    have hl : ∀ c ∈ l, ¬ c = '.' := fun c hc => h c (List.mem_cons_of_mem _ hc)
    simp only [List.cons_append, List.takeWhile_cons]
    rw [if_pos (by simp [ha]), ih hl]

theorem fracFormat_append (base frac : List Char)
    (hd : ∀ c ∈ frac, c ∈ digitsChars) :
    fracFormat ((base ++ '.' :: frac) ++ ['Z']) = some frac.length := by
  have hdot : ∀ c ∈ frac.reverse, ¬ c = '.' := by
    intro c hc
    have := hd c (List.mem_reverse.mp hc)
    intro heq
    exact absurd (heq ▸ this) (by decide)
  have hrev : ((base ++ '.' :: frac) ++ ['Z']).reverse =
      'Z' :: (frac.reverse ++ '.' :: base.reverse) := by
    simp
  unfold fracFormat
  rw [hrev]
  simp only [takeWhile_ne_dot_append _ _ hdot]
  rw [if_pos ?side]
  · simp
  case side =>
    constructor
    · rw [List.all_eq_true]
      intro c hc
      exact (digitsChars_props c (hd c (List.mem_reverse.mp hc))).1
    · rw [List.length_reverse, show frac.length = frac.reverse.length by simp,
        List.drop_left]
      rfl

theorem plus_not_mem_append (a b : List Char) (ha : '+' ∉ a) (hb : '+' ∉ b) :
    '+' ∉ a ++ b := fun h => (List.mem_append.mp h).elim ha hb

theorem plus_not_mem_cons (c : Char) (l : List Char) (h1 : ('+' : Char) ≠ c)
    (h2 : '+' ∉ l) : '+' ∉ c :: l := by
  intro hm
  rcases List.mem_cons.mp hm with h | h
  · exact h1 h
  · exact h2 h

theorem plus_not_mem_pad2 (n : Nat) : '+' ∉ pad2 n := fun h =>
  absurd (mem_pad2 _ _ h) (by decide)

theorem mem_pad3 (n : Nat) (c : Char) (h : c ∈ pad3 n) : c ∈ digitsChars := by
  unfold pad3 at h
  split_ifs at h
  · rcases List.mem_cons.mp h with h1 | h1
    · exact h1 ▸ digitChar_mem _
    rcases List.mem_cons.mp h1 with h2 | h2
    · exact h2 ▸ digitChar_mem _
    simp only [List.mem_singleton] at h2
    exact h2 ▸ digitChar_mem _
  · exact mem_natCharsAux _ _ _ h

theorem mem_pad6 (n : Nat) (c : Char) (h : c ∈ pad6 n) : c ∈ digitsChars := by
  unfold pad6 at h
  simp only [List.mem_cons, List.mem_singleton, List.not_mem_nil, or_false] at h
  rcases h with h | h | h | h | h | h <;> exact h ▸ digitChar_mem _

theorem plus_not_mem_pad3 (n : Nat) : '+' ∉ pad3 n := fun h =>
  absurd (mem_pad3 _ _ h) (by decide)

theorem plus_not_mem_timePart (w : DateTime) :
    '+' ∉ pad2 w.hour ++ ':' :: (pad2 w.minute ++ ':' :: pad2 w.second) :=
  plus_not_mem_append _ _ (plus_not_mem_pad2 _)
    (plus_not_mem_cons _ _ (by decide)
      (plus_not_mem_append _ _ (plus_not_mem_pad2 _)
        (plus_not_mem_cons _ _ (by decide) (plus_not_mem_pad2 _))))

theorem pad3_length (n : Nat) (h : n < 1000) : (pad3 n).length = 3 := by
  unfold pad3
  rw [if_pos h]
  rfl

theorem fracFormat_shdxWhenString (w : DateTime) (h : w.micro < 1000000) :
    fracFormat (shdxWhenString w) = some 3 := by
  have hplus : '+' ∉ intStr w.day ++
      (('T' :: (pad2 w.hour ++ ':' :: (pad2 w.minute ++ ':' :: pad2 w.second))) ++
        '.' :: pad3 (w.micro / 1000)) :=
    plus_not_mem_append _ _ (plus_not_mem_intStr _)
      (plus_not_mem_append _ _
        (plus_not_mem_cons _ _ (by decide) (plus_not_mem_timePart w))
        (plus_not_mem_cons _ _ (by decide) (plus_not_mem_pad3 _)))
  have hassoc : isoMillis w =
      (intStr w.day ++
        (('T' :: (pad2 w.hour ++ ':' :: (pad2 w.minute ++ ':' :: pad2 w.second))) ++
          '.' :: pad3 (w.micro / 1000))) ++ tzSuffixChars := by
    unfold isoMillis
    simp [List.append_assoc]
  unfold shdxWhenString
  rw [hassoc, replaceAll_tz _ hplus]
  have hshape : (intStr w.day ++
      (('T' :: (pad2 w.hour ++ ':' :: (pad2 w.minute ++ ':' :: pad2 w.second))) ++
        '.' :: pad3 (w.micro / 1000))) ++ ['Z'] =
      ((intStr w.day ++
        'T' :: (pad2 w.hour ++ ':' :: (pad2 w.minute ++ ':' :: pad2 w.second)) ++
        '.' :: pad3 (w.micro / 1000))) ++ ['Z'] := by
    simp [List.append_assoc]
  rw [hshape]
  rw [show intStr w.day ++
      'T' :: (pad2 w.hour ++ ':' :: (pad2 w.minute ++ ':' :: pad2 w.second)) ++
      '.' :: pad3 (w.micro / 1000) =
      (intStr w.day ++ 'T' :: (pad2 w.hour ++ ':' :: (pad2 w.minute ++ ':' :: pad2 w.second)))
        ++ '.' :: pad3 (w.micro / 1000) by simp [List.append_assoc]]
  rw [fracFormat_append _ _ (fun c hc => mem_pad3 _ _ hc)]
  rw [pad3_length _ (by omega)]

theorem fracFormat_relayWhenString (w : DateTime) (h0 : ¬ w.micro = 0) :
    fracFormat (relayWhenString w) = some 6 := by
  have hplus : '+' ∉ intStr w.day ++
      (('T' :: (pad2 w.hour ++ ':' :: (pad2 w.minute ++ ':' :: pad2 w.second))) ++
        '.' :: pad6 w.micro) :=
    plus_not_mem_append _ _ (plus_not_mem_intStr _)
      (plus_not_mem_append _ _
        (plus_not_mem_cons _ _ (by decide) (plus_not_mem_timePart w))
        (plus_not_mem_cons _ _ (by decide)
          (fun h => absurd (mem_pad6 _ _ h) (by decide))))
  have hassoc : isoDefault w =
      (intStr w.day ++
        (('T' :: (pad2 w.hour ++ ':' :: (pad2 w.minute ++ ':' :: pad2 w.second))) ++
          '.' :: pad6 w.micro)) ++ tzSuffixChars := by
    unfold isoDefault
    rw [if_neg h0]
    simp [List.append_assoc]
  unfold relayWhenString
  rw [hassoc, replaceAll_tz _ hplus]
  rw [show intStr w.day ++
      (('T' :: (pad2 w.hour ++ ':' :: (pad2 w.minute ++ ':' :: pad2 w.second))) ++
        '.' :: pad6 w.micro) =
      (intStr w.day ++ 'T' :: (pad2 w.hour ++ ':' :: (pad2 w.minute ++ ':' :: pad2 w.second)))
        ++ '.' :: pad6 w.micro by simp [List.append_assoc]]
  rw [fracFormat_append _ _ (fun c hc => mem_pad6 _ _ hc)]
  rfl

/-- C10 fails on the code: the relay branch serializes with the default
isoformat(), giving six (microsecond) fractional digits, not three;
the record built by the relay pipeline from the example line carries a
six-digit fraction, while the bulk-listing record carries three. -/
theorem c10_counterexample_micro_precision :
    relaySpotEx = some relaySpotVal ∧
    fracFormat relaySpotVal.whenS = some 6 ∧
    ¬ fracFormat relaySpotVal.whenS = some 3 ∧
    fracFormat shdxSpotVal.whenS = some 3 := by decide

/-- C10 amended: every spot record created by the bulk-listing grammar
carries a UTC timestamp serialized with exactly three fractional
digits (millisecond precision), while a record created by the relay
grammar stores the reconstructed instant at default isoformat
precision: six fractional digits whenever its microsecond component is
nonzero. -/
theorem c10_bulk_millis_relay_micro :
    (∀ w : DateTime, w.micro < 1000000 → fracFormat (shdxWhenString w) = some 3) ∧
    (∀ (raw : ShdxRaw) (now : DateTime) (s : Spot), mkShdxSpot raw now = some s →
      now.micro < 1000000 → fracFormat s.whenS = some 3) ∧
    (∀ w : DateTime, ¬ w.micro = 0 → fracFormat (relayWhenString w) = some 6) ∧
    (∀ (raw : RelayRaw) (now : DateTime) (s : Spot) (w : DateTime),
      mkRelaySpot raw now = some s → parse_z_time raw.time now = some w →
      s.whenS = relayWhenString w) := by
  refine ⟨fracFormat_shdxWhenString, ?_, fracFormat_relayWhenString, ?_⟩
  · intro raw now s h hm
    unfold mkShdxSpot at h
    cases hp : strptimeShdx raw.date raw.time with
    | none =>
      rw [hp] at h
      exact Option.noConfusion h
    | some triple =>
      rcases triple with ⟨day, hh, mm⟩
      rw [hp] at h
      rw [← Option.some.inj h]
      exact fracFormat_shdxWhenString _ hm
  · intro raw now s w h hp
    unfold mkRelaySpot at h
    rw [hp] at h
    rw [← Option.some.inj h]

theorem c10_bulk_millis_relay_micro_witness :
    fracFormat (shdxWhenString ⟨20403, 18, 22, 12, 345678⟩) = some 3 ∧
    fracFormat (relayWhenString ⟨20403, 18, 22, 7, 123456⟩) = some 6 :=
  ⟨c10_bulk_millis_relay_micro.1 ⟨20403, 18, 22, 12, 345678⟩ (by decide),
    c10_bulk_millis_relay_micro.2.2.1 ⟨20403, 18, 22, 7, 123456⟩ (by decide)⟩
